import Mathlib

/-!
Verification of the TimeTagger backend (`src/backend/app.py`).

The program accepts a JSON annotation payload, transforms it into grouped,
sorted, serialized rows (`format_annotations`), and appends rows to a
semicolon-delimited file (`write_rows`), with an HTTP handler
(`save_annotations`) tying the two together.

The embedding models:
  * JSON values (`JValue`), with numbers as rationals.  Python floats are
    modelled by `ℚ`; the special values `inf`/`nan` and binary rounding are
    outside the model (no claim depends on them).
  * Python dictionary access (`pyGet`, raising `AttributeError` on
    non-dicts), `str.strip` (`pyStrip`, raising on non-strings), truthiness
    (`pyTruthy`), `float(...)` coercion (`pyFloat`), and iteration
    (`pyIter`, raising `TypeError` on non-iterables).
  * Exceptions as the `Except String` monad: `.error` means the Python code
    raises at that point.
-/

/-- A decoded JSON value (also standing for the Python value it decodes to). -/
inductive JValue where
  | null
  | bool (b : Bool)
  | num (q : ℚ)
  | str (s : String)
  | arr (elems : List JValue)
  | obj (fields : List (String × JValue))

/-- First-match lookup in a JSON object's field list (JSON objects produced by
a parser have unique keys, so first-match agrees with Python dict lookup). -/
def lookupField (fields : List (String × JValue)) (key : String) : Option JValue :=
  match fields with
  | [] => none
  | (k, v) :: rest => if k = key then some v else lookupField rest key

/-- Python `d.get(key, default)`: `AttributeError` when the receiver is not a
dict, otherwise the field's value or the default. -/
def pyGet (item : JValue) (key : String) (dflt : JValue) : Except String JValue :=
  match item with
  | .obj fields => .ok ((lookupField fields key).getD dflt)
  | _ => .error "AttributeError: get"

/-- Python `s.strip()` on the string itself: drop leading and trailing
whitespace (space, tab, newline, carriage return). -/
def pyStripStr (s : String) : String :=
  String.mk (((s.toList.dropWhile Char.isWhitespace).reverse.dropWhile
    Char.isWhitespace).reverse)

/-- Python `v.strip()`: defined on strings only; `AttributeError` otherwise. -/
def pyStrip (v : JValue) : Except String String :=
  match v with
  | .str s => .ok (pyStripStr s)
  | _ => .error "AttributeError: strip"

/-- Python truthiness of a JSON-decoded value. -/
def pyTruthy (v : JValue) : Bool :=
  match v with
  | .null => false
  | .bool b => b
  | .num q => decide (q ≠ 0)
  | .str s => decide (s ≠ "")
  | .arr xs => !xs.isEmpty
  | .obj fields => !fields.isEmpty

/-- One character of a decimal literal. -/
def digitVal (c : Char) : Option ℕ :=
  if c.isDigit then some (c.toNat - '0'.toNat) else none

/-- Parse a run of decimal digits, returning value and digit count. -/
def parseDigits : List Char → Option (ℕ × ℕ)
  | [] => none
  | cs =>
    let rec go (acc : ℕ) (n : ℕ) : List Char → Option (ℕ × ℕ)
      | [] => some (acc, n)
      | c :: rest =>
        match digitVal c with
        | some d => go (acc * 10 + d) (n + 1) rest
        | none => none
    go 0 0 cs

/-- Python `float(s)` on the decimal-literal subset
`[ws] [+|-] (digits [. [digits]] | . digits) [ (e|E) [+|-] digits ] [ws]`;
`none` models `ValueError`.  (`inf`/`nan`/underscored literals are outside
the model; no claim exercises them.) -/
def parseFloat (s : String) : Option ℚ :=
  let cs := (pyStripStr s).toList
  let (sign, cs) : ℚ × List Char :=
    match cs with
    | '-' :: rest => (-1, rest)
    | '+' :: rest => (1, rest)
    | _ => (1, cs)
  let intPart := cs.takeWhile Char.isDigit
  let afterInt := cs.dropWhile Char.isDigit
  let (mantissa, cs2) : Option ℚ × List Char :=
    match afterInt with
    | '.' :: rest =>
      let fracPart := rest.takeWhile Char.isDigit
      let afterFrac := rest.dropWhile Char.isDigit
      if intPart = [] ∧ fracPart = [] then (none, afterFrac)
      else
        match parseDigits fracPart with
        | some (fv, fn) =>
          (some ((intPart.foldl (fun a c => a * 10 + ((digitVal c).getD 0)) 0 : ℕ) +
            (fv : ℚ) / ((10 : ℚ) ^ fn)), afterFrac)
        | none =>
          if intPart = [] then (none, afterFrac)
          else (some ((intPart.foldl (fun a c => a * 10 + ((digitVal c).getD 0)) 0 : ℕ) : ℚ),
            afterFrac)
    | _ =>
      if intPart = [] then (none, afterInt)
      else (some ((intPart.foldl (fun a c => a * 10 + ((digitVal c).getD 0)) 0 : ℕ) : ℚ), afterInt)
  match mantissa with
  | none => none
  | some m =>
    match cs2 with
    | [] => some (sign * m)
    | e :: rest =>
      if e = 'e' ∨ e = 'E' then
        let (esign, rest) : Bool × List Char :=
          match rest with
          | '-' :: r => (true, r)
          | '+' :: r => (false, r)
          | _ => (false, rest)
        match parseDigits (rest.takeWhile Char.isDigit) with
        | some (ev, _) =>
          if rest.dropWhile Char.isDigit = [] then
            some (sign * m * (if esign then ((10 : ℚ) ^ ev)⁻¹ else (10 : ℚ) ^ ev))
          else none
        | none => none
      else none

/-- Python `float(v)` on a JSON-decoded value: numbers pass through, booleans
become 0/1, strings are parsed; `none` models the `TypeError`/`ValueError`
that the source catches (null, lists, dicts, non-numeric strings). -/
def pyFloat (v : JValue) : Option ℚ :=
  match v with
  | .num q => some q
  | .bool b => some (if b then 1 else 0)
  | .str s => parseFloat s
  | _ => none

/-- Python `for item in v`: lists yield elements, strings yield 1-character
strings, dicts yield their keys; numbers, booleans and `None` raise
`TypeError`. -/
def pyIter (v : JValue) : Except String (List JValue) :=
  match v with
  | .arr xs => .ok xs
  | .str s => .ok (s.toList.map (fun c => JValue.str (String.mk [c])))
  | .obj fields => .ok (fields.map (fun kv => JValue.str kv.1))
  | _ => .error "TypeError: object is not iterable"

/-- The integer fraction `a / b` (with `b > 0`) rounded to the nearest
integer, ties to even: the rounding of Python's `format(..., ".2f")` at
exactly representable values.  `f` is the floor of the fraction and `r` its
remainder. -/
def roundHalfEven (a b : ℤ) : ℤ :=
  let f := Int.fdiv a b
  let r := a - f * b
  if 2 * r < b then f
  else if 2 * r > b then f + 1
  else if f % 2 = 0 then f else f + 1

/-- Python `f"{t:.2f}"`: the number rendered with exactly two decimal
digits (`q * 100 = q.num * 100 / q.den` rounded half-to-even, then split
into integer and two-digit fractional part). -/
def format2 (q : ℚ) : String :=
  let n := roundHalfEven (q.num * 100) q.den
  let a := n.natAbs
  (if n < 0 then "-" else "") ++ toString (a / 100) ++ "." ++
    (if a % 100 < 10 then "0" else "") ++ toString (a % 100)

/-- One (time, type) pair as collected per entry. -/
abbrev TimePair := ℚ × String

/-- The grouping map `{ fm_item -> list[(time, type)] }`: Python's
insertion-ordered `defaultdict(list)` as an association list; a new key is
appended at the end, an existing key's list grows at its end. -/
def insertGrouped (g : List (String × List TimePair)) (fm : String) (p : TimePair) :
    List (String × List TimePair) :=
  match g with
  | [] => [(fm, [p])]
  | (k, ps) :: rest =>
    if k = fm then (k, ps ++ [p]) :: rest else (k, ps) :: insertGrouped rest fm p

/-- Insert a pair into a time-sorted list, after all pairs of time ≤ its own. -/
def insertPair (p : TimePair) : List TimePair → List TimePair
  | [] => [p]
  | q :: rest => if p.1 < q.1 then p :: q :: rest else q :: insertPair p rest

/-- Python `lst.sort(key=lambda x: x[0])`: the stable ascending sort by time
(a stable sort by a fixed key is extensionally unique, so insertion sort is
the same function as the source's Timsort call). -/
def sortPairs (l : List TimePair) : List TimePair :=
  l.foldl (fun acc p => insertPair p acc) []

/-- Serialization `",".join(f"{tp}:{t:.2f}" for t, tp in lst)`. -/
def joinTimes (l : List TimePair) : String :=
  String.intercalate "," (l.map (fun p => p.2 ++ ":" ++ format2 p.1))

/-- The body of the `for item in ann` loop: compute `fm` and `tp` (either may
raise `AttributeError`), then `float(item.get("time", 0.0))`; a coercion
failure skips the entry, success appends `(t, tp)` under `fm`.  Exception
propagation is the explicit `.error` plumbing. -/
def processEntry (g : List (String × List TimePair)) (item : JValue) :
    Except String (List (String × List TimePair)) :=
  match pyGet item "fmItem" .null with
  | .error e => .error e
  | .ok fmRaw =>
    match pyStrip (if pyTruthy fmRaw then fmRaw else .str "") with
    | .error e => .error e
    | .ok fm =>
      match pyGet item "type" (.str "") with
      | .error e => .error e
      | .ok tpRaw =>
        match pyStrip tpRaw with
        | .error e => .error e
        | .ok tp =>
          match pyGet item "time" (.num 0) with
          | .error e => .error e
          | .ok tRaw =>
            match pyFloat tRaw with
            | none => .ok g
            | some t => .ok (insertGrouped g fm (t, tp))

/-- The `for item in ann` loop over the whole list, threading the grouping
map and propagating the first exception. -/
def foldProcess : List (String × List TimePair) → List JValue →
    Except String (List (String × List TimePair))
  | g, [] => .ok g
  | g, item :: rest =>
    match processEntry g item with
    | .error e => .error e
    | .ok g2 => foldProcess g2 rest

/-- Function `format_annotations` (src/backend/app.py:37-64): payload → CSV rows, in
the `Except` monad (`.error` = the Python call raises). -/
def format_annotations (payload : JValue) : Except String (List (List String)) :=
  match pyGet payload "video_path" (.str "") with
  | .error e => .error e
  | .ok vpRaw =>
    match pyStrip vpRaw with
    | .error e => .error e
    | .ok video_path =>
      match pyGet payload "annotations" (.arr []) with
      | .error e => .error e
      | .ok annRaw =>
        match pyIter annRaw with
        | .error e => .error e
        | .ok ann =>
          match foldProcess [] ann with
          | .error e => .error e
          | .ok grouped =>
            .ok (grouped.map (fun g => [video_path, g.1, joinTimes (sortPairs g.2)]))

/-! The append writer and the HTTP handler.

The annotation file is modelled as `Option (List String)`: `none` = the file
does not exist, `some lines` = its lines.  (`csv.writer` line terminators and
the parent-directory creation are below the abstraction.) -/

/-- Constant `CSV_HEADER` (src/backend/app.py:15). -/
def CSV_HEADER : List String := ["video_path", "fm_item", "times"]

/-- Field quoting of `csv.writer` (QUOTE_MINIMAL): a field containing the
delimiter, a quote, or a line break is wrapped in quotes, inner quotes
doubled. -/
def quoteField (f : String) : String :=
  if f.toList.any (fun c => c == ';' || c == '"' || c == '\n' || c == '\r') then
    "\"" ++ (f.replace "\"" "\"\"") ++ "\""
  else f

/-- One row serialized with the `;` delimiter. -/
def rowLine (row : List String) : String :=
  String.intercalate ";" (row.map quoteField)

/-- The header line `video_path;fm_item;times`. -/
def headerLine : String := rowLine CSV_HEADER

/-- Function `write_rows` (src/backend/app.py:24-34): append rows, creating the file
with the header when it does not exist.  The lock makes the whole operation
one atomic step, which is what a sequential state-passing function is. -/
def write_rows (fs : Option (List String)) (rows : List (List String)) :
    Option (List String) :=
  match fs with
  | none => some (headerLine :: rows.map rowLine)
  | some lines => some (lines ++ rows.map rowLine)

/-- Expression `request.get_json(silent=True) or \x7b\x7d`: an unparseable (`none`) or falsy
body is replaced by the empty dict. -/
def payloadOfBody (body : Option JValue) : JValue :=
  match body with
  | some v => if pyTruthy v then v else .obj []
  | none => .obj []

/-- Function `save_annotations` (src/backend/app.py:67-81): the POST handler, returning
(status, response body) and the new file state; `.error` = an uncaught
exception escaping the handler.  (`write_rows` cannot fail in the model, so
the `OSError` → 500 branch is unreachable here.) -/
def save_annotations (isJson : Bool) (body : Option JValue) (fs : Option (List String)) :
    Except String ((ℕ × JValue) × Option (List String)) :=
  if isJson then
    match format_annotations (payloadOfBody body) with
    | .error e => .error e
    | .ok rows =>
      if rows.isEmpty then
        .ok ((400, .obj [("error", .str "No valid annotations")]), fs)
      else
        .ok ((200, .obj [("status", .str "ok"), ("rows_written", .num rows.length)]),
          write_rows fs rows)
  else
    .ok ((400, .obj [("error", .str "Expecting JSON")]), fs)

/-! Spec-side definitions: total extractors for well-formed values, the
well-formedness predicates under which the Python code cannot raise, and
first-seen key order.  These are the vocabulary of the claims; the bridging
lemmas below connect them to the embedded source functions. -/

/-- Values on which Python `.strip()` is defined (strings). -/
def wfStrippable (v : JValue) : Bool :=
  match v with
  | .str _ => true
  | _ => false

/-- The trimmed `fmItem` key of an entry's fields, total on well-formed
entries: a falsy `fmItem` becomes the empty string. -/
def entryFm (fields : List (String × JValue)) : String :=
  match (if pyTruthy ((lookupField fields "fmItem").getD .null)
         then (lookupField fields "fmItem").getD .null else .str "") with
  | .str s => pyStripStr s
  | _ => ""

/-- The trimmed `type` of an entry's fields, total on well-formed entries. -/
def entryTp (fields : List (String × JValue)) : String :=
  match (lookupField fields "type").getD (.str "") with
  | .str s => pyStripStr s
  | _ => ""

/-- The coerced `time` of an entry's fields (`0.0` when the key is absent);
`none` when the coercion fails and the entry is dropped. -/
def entryTime (fields : List (String × JValue)) : Option ℚ :=
  pyFloat ((lookupField fields "time").getD (.num 0))

/-- An annotation entry on which the loop body cannot raise: a dict whose
`fmItem` is a string or falsy and whose `type` is a string (or absent). -/
def wfEntry (item : JValue) : Bool :=
  match item with
  | .obj fields =>
    wfStrippable (if pyTruthy ((lookupField fields "fmItem").getD .null)
      then (lookupField fields "fmItem").getD .null else .str "") &&
    wfStrippable ((lookupField fields "type").getD (.str ""))
  | _ => false

/-- A payload on which `format_annotations` cannot raise: a dict whose
`video_path` is a string (or absent) and whose `annotations` is a list (or
absent) of well-formed entries. -/
def wfPayload (payload : JValue) : Bool :=
  match payload with
  | .obj fields =>
    wfStrippable ((lookupField fields "video_path").getD (.str "")) &&
    (match (lookupField fields "annotations").getD (.arr []) with
     | .arr items => items.all wfEntry
     | _ => false)
  | _ => false

/-- The trimmed `video_path` of a payload, total on well-formed payloads. -/
def payloadVp (payload : JValue) : String :=
  match payload with
  | .obj fields =>
    match (lookupField fields "video_path").getD (.str "") with
    | .str s => pyStripStr s
    | _ => ""
  | _ => ""

/-- The annotation list of a payload, total on well-formed payloads. -/
def payloadAnns (payload : JValue) : List JValue :=
  match payload with
  | .obj fields =>
    match (lookupField fields "annotations").getD (.arr []) with
    | .arr items => items
    | _ => []
  | _ => []

/-- The loop body as a total function on well-formed entries: skip the entry
when the `time` coercion fails, otherwise append its pair under its key. -/
def stepPure (g : List (String × List TimePair)) (item : JValue) :
    List (String × List TimePair) :=
  match item with
  | .obj fields =>
    match entryTime fields with
    | none => g
    | some t => insertGrouped g (entryFm fields) (t, entryTp fields)
  | _ => g

/-- Entries that survive the `time` coercion (dict entries whose `time`
coerces; everything else contributes nothing to the grouping). -/
def timeCoercible (item : JValue) : Bool :=
  match item with
  | .obj fields => (entryTime fields).isSome
  | _ => false

/-- The `fmItem` keys of the entries whose `time` coerces, in input order
(with repetitions). -/
def validKeys (anns : List JValue) : List String :=
  anns.filterMap (fun item =>
    match item with
    | .obj fields => if (entryTime fields).isSome then some (entryFm fields) else none
    | _ => none)

/-- First occurrence of each key not already in `seen`, in input order. -/
def firstSeen (seen : List String) : List String → List String
  | [] => []
  | k :: rest =>
    if k ∈ seen then firstSeen seen rest else k :: firstSeen (k :: seen) rest

/-- A payload built from a video path and an annotation list. -/
def mkPayload (vp : String) (anns : List JValue) : JValue :=
  .obj [("video_path", .str vp), ("annotations", .arr anns)]

/-- The payload of spec Scenario A. -/
def scenarioA : JValue :=
  .obj [("video_path", .str "a.mp4"),
        ("annotations", .arr
          [.obj [("time", .num 2), ("type", .str "x"), ("fmItem", .str "f1")],
           .obj [("time", .num 1), ("type", .str "y"), ("fmItem", .str "f1")]])]

/-- A payload with two equal-time entries in one group (exercises sort
stability). -/
def scenarioTie : JValue :=
  .obj [("annotations", .arr
          [.obj [("time", .num 1), ("type", .str "a"), ("fmItem", .str "f")],
           .obj [("time", .num 1), ("type", .str "b"), ("fmItem", .str "f")]])]

/-- A payload with two groups and one dropped (non-coercible time) entry. -/
def scenarioMixed : JValue :=
  .obj [("video_path", .str "v.mp4"),
        ("annotations", .arr
          [.obj [("time", .num 1), ("type", .str "a"), ("fmItem", .str "g1")],
           .obj [("time", .str "not-a-number"), ("type", .str "z"), ("fmItem", .str "g3")],
           .obj [("time", .num 2), ("type", .str "b"), ("fmItem", .str "g2")],
           .obj [("time", .num 3), ("type", .str "c"), ("fmItem", .str "g1")]])]

/-! Bridging lemmas. -/

theorem mem_insertPair {b p : TimePair} {l : List TimePair} :
    b ∈ insertPair p l ↔ b = p ∨ b ∈ l := by
  induction l with
  | nil => simp [insertPair]
  | cons q rest ih =>
    by_cases h : p.1 < q.1
    · simp [insertPair, h, List.mem_cons]
    · simp only [insertPair, if_neg h, List.mem_cons, ih]
      tauto

theorem insertPair_sorted {p : TimePair} {l : List TimePair}
    (h : l.Pairwise (fun a b => a.1 ≤ b.1)) :
    (insertPair p l).Pairwise (fun a b => a.1 ≤ b.1) := by
  induction l with
  | nil => simp [insertPair]
  | cons q rest ih =>
    rw [List.pairwise_cons] at h
    obtain ⟨hq, hrest⟩ := h
    by_cases hpq : p.1 < q.1
    · simp only [insertPair, if_pos hpq]
      rw [List.pairwise_cons]
      refine ⟨?_, List.pairwise_cons.mpr ⟨hq, hrest⟩⟩
      intro b hb
      rcases List.mem_cons.mp hb with hb | hb
      · exact hb ▸ le_of_lt hpq
      · exact le_trans (le_of_lt hpq) (hq b hb)
    · simp only [insertPair, if_neg hpq]
      rw [List.pairwise_cons]
      refine ⟨?_, ih hrest⟩
      intro b hb
      rcases mem_insertPair.mp hb with hb | hb
      · exact hb ▸ le_of_not_lt hpq
      · exact hq b hb

theorem filter_insertPair (t : ℚ) {p : TimePair} {l : List TimePair}
    (h : l.Pairwise (fun a b => a.1 ≤ b.1)) :
    (insertPair p l).filter (fun x => decide (x.1 = t)) =
      l.filter (fun x => decide (x.1 = t)) ++ (if p.1 = t then [p] else []) := by
  induction l with
  | nil =>
    by_cases hp : p.1 = t <;> simp [insertPair, List.filter_cons, hp]
  | cons q rest ih =>
    rw [List.pairwise_cons] at h
    obtain ⟨hq, hrest⟩ := h
    by_cases hpq : p.1 < q.1
    · simp only [insertPair, if_pos hpq]
      by_cases hp : p.1 = t
      · have hnone : (q :: rest).filter (fun x => decide (x.1 = t)) = [] := by
          rw [List.filter_eq_nil_iff]
          intro b hb
          simp only [decide_eq_true_eq]
          intro hb1
          rcases List.mem_cons.mp hb with hbq | hbr
          · rw [hbq] at hb1
            rw [hb1, hp] at hpq
            exact lt_irrefl t hpq
          · have h2 := hq b hbr
            rw [hb1] at h2
            rw [hp] at hpq
            exact lt_irrefl t (lt_of_lt_of_le hpq h2)
        rw [hnone]
        simp [List.filter_cons, hp, hnone]
      · simp [List.filter_cons, hp]
    · simp only [insertPair, if_neg hpq]
      by_cases hqt : q.1 = t <;>
        simp [List.filter_cons, hqt, ih hrest]

theorem sortPairs_aux (l : List TimePair) :
    ∀ acc, acc.Pairwise (fun a b => a.1 ≤ b.1) →
      (l.foldl (fun a p => insertPair p a) acc).Pairwise (fun a b => a.1 ≤ b.1) ∧
      ∀ t, (l.foldl (fun a p => insertPair p a) acc).filter (fun x => decide (x.1 = t)) =
        acc.filter (fun x => decide (x.1 = t)) ++ l.filter (fun x => decide (x.1 = t)) := by
  induction l with
  | nil =>
    intro acc hacc
    refine ⟨hacc, fun t => by simp⟩
  | cons p rest ih =>
    intro acc hacc
    have hins := insertPair_sorted (p := p) hacc
    obtain ⟨hs, hf⟩ := ih (insertPair p acc) hins
    refine ⟨hs, fun t => ?_⟩
    show (rest.foldl (fun a p => insertPair p a) (insertPair p acc)).filter
        (fun x => decide (x.1 = t)) = _
    rw [hf t, filter_insertPair t hacc]
    by_cases hp : p.1 = t <;> simp [List.filter_cons, hp]

theorem sortPairs_sorted (l : List TimePair) :
    (sortPairs l).Pairwise (fun a b => a.1 ≤ b.1) :=
  (sortPairs_aux l [] (by simp)).1

theorem sortPairs_stable (l : List TimePair) (t : ℚ) :
    (sortPairs l).filter (fun x => decide (x.1 = t)) =
      l.filter (fun x => decide (x.1 = t)) := by
  have h := (sortPairs_aux l [] (by simp)).2 t
  simpa [sortPairs] using h

theorem wfStrippable_iff {v : JValue} : wfStrippable v = true ↔ ∃ s, v = .str s := by
  cases v <;> simp [wfStrippable]

theorem format_annotations_shape {p : JValue} {rows : List (List String)}
    (h : format_annotations p = .ok rows) :
    ∃ (vp : String) (grouped : List (String × List TimePair)),
      rows = grouped.map (fun g => [vp, g.1, joinTimes (sortPairs g.2)]) := by
  unfold format_annotations at h
  split at h
  · cases h
  · split at h
    · cases h
    · split at h
      · cases h
      · split at h
        · cases h
        · split at h
          · cases h
          · exact ⟨_, _, (Except.ok.inj h).symm⟩

theorem processEntry_wf {item : JValue} (g : List (String × List TimePair))
    (h : wfEntry item = true) : processEntry g item = .ok (stepPure g item) := by
  cases item with
  | obj fields =>
    simp only [wfEntry, Bool.and_eq_true] at h
    obtain ⟨hfm, htp⟩ := h
    obtain ⟨s1, hs1⟩ := wfStrippable_iff.mp hfm
    obtain ⟨s2, hs2⟩ := wfStrippable_iff.mp htp
    unfold processEntry stepPure entryFm entryTp entryTime
    simp only [pyGet]
    rw [hs1, hs2]
    simp only [pyStrip]
    cases hT : pyFloat ((lookupField fields "time").getD (.num 0)) <;> simp [hT]
  | null => simp [wfEntry] at h
  | bool b => simp [wfEntry] at h
  | num q => simp [wfEntry] at h
  | str s => simp [wfEntry] at h
  | arr xs => simp [wfEntry] at h

theorem foldProcess_wf {anns : List JValue} :
    ∀ g, anns.all wfEntry = true →
      foldProcess g anns = .ok (anns.foldl stepPure g) := by
  induction anns with
  | nil => intro g _; rfl
  | cons item rest ih =>
    intro g h
    rw [List.all_cons, Bool.and_eq_true] at h
    rw [List.foldl_cons]
    show (match processEntry g item with
      | Except.error e => Except.error e
      | Except.ok g2 => foldProcess g2 rest) =
      Except.ok (rest.foldl stepPure (stepPure g item))
    rw [processEntry_wf g h.1]
    exact ih _ h.2

theorem format_annotations_wf {p : JValue} (h : wfPayload p = true) :
    format_annotations p =
      .ok (((payloadAnns p).foldl stepPure []).map
        (fun g => [payloadVp p, g.1, joinTimes (sortPairs g.2)])) := by
  cases p with
  | obj fields =>
    rw [wfPayload, Bool.and_eq_true] at h
    obtain ⟨hvp, hann⟩ := h
    obtain ⟨s, hs⟩ := wfStrippable_iff.mp hvp
    unfold format_annotations payloadAnns payloadVp
    simp only [pyGet]
    rw [hs]
    simp only [pyStrip]
    cases hA : (lookupField fields "annotations").getD (.arr []) with
    | arr items =>
      rw [hA] at hann
      simp only [pyIter]
      rw [foldProcess_wf [] hann]
    | null => rw [hA] at hann; cases hann
    | bool b => rw [hA] at hann; cases hann
    | num q => rw [hA] at hann; cases hann
    | str s2 => rw [hA] at hann; cases hann
    | obj fs2 => rw [hA] at hann; cases hann
  | null => cases h
  | bool b => cases h
  | num q => cases h
  | str s => cases h
  | arr xs => cases h

theorem keys_insertGrouped (g : List (String × List TimePair)) (fm : String)
    (p : TimePair) :
    (insertGrouped g fm p).map Prod.fst =
      if fm ∈ g.map Prod.fst then g.map Prod.fst else g.map Prod.fst ++ [fm] := by
  induction g with
  | nil => simp [insertGrouped]
  | cons kv rest ih =>
    obtain ⟨k, ps⟩ := kv
    by_cases hk : k = fm
    · simp [insertGrouped, hk]
    · have hne : fm ≠ k := fun hc => hk hc.symm
      simp only [insertGrouped, if_neg hk, List.map_cons, List.mem_cons]
      by_cases hmem : fm ∈ rest.map Prod.fst
      · simp [hmem, hne, ih]
      · simp [hmem, hne, ih]

theorem firstSeen_congr {l : List String} :
    ∀ {s1 s2 : List String}, (∀ x, x ∈ s1 ↔ x ∈ s2) →
      firstSeen s1 l = firstSeen s2 l := by
  induction l with
  | nil => intro s1 s2 _; rfl
  | cons k rest ih =>
    intro s1 s2 hs
    by_cases hk : k ∈ s1
    · rw [firstSeen, if_pos hk, firstSeen, if_pos ((hs k).mp hk)]
      exact ih hs
    · rw [firstSeen, if_neg hk, firstSeen, if_neg (fun hc => hk ((hs k).mpr hc))]
      refine congrArg _ (ih fun x => ?_)
      simp only [List.mem_cons]
      exact or_congr Iff.rfl (hs x)

theorem mem_firstSeen {k : String} {l : List String} :
    ∀ {seen}, k ∈ firstSeen seen l ↔ k ∈ l ∧ k ∉ seen := by
  induction l with
  | nil => intro seen; simp [firstSeen]
  | cons a rest ih =>
    intro seen
    by_cases ha : a ∈ seen
    · rw [firstSeen, if_pos ha, ih]
      simp only [List.mem_cons]
      constructor
      · rintro ⟨hr, hn⟩; exact ⟨Or.inr hr, hn⟩
      · rintro ⟨ha2 | hr, hn⟩
        · exact absurd (ha2 ▸ ha) hn
        · exact ⟨hr, hn⟩
    · rw [firstSeen, if_neg ha]
      simp only [List.mem_cons, ih]
      by_cases hka : k = a
      · subst hka; simp [ha]
      · simp only [hka, false_or, List.mem_cons, not_or]

theorem nodup_firstSeen {l : List String} : ∀ {seen}, (firstSeen seen l).Nodup := by
  induction l with
  | nil => intro seen; simp [firstSeen]
  | cons a rest ih =>
    intro seen
    by_cases ha : a ∈ seen
    · rw [firstSeen, if_pos ha]; exact ih
    · rw [firstSeen, if_neg ha]
      refine List.nodup_cons.mpr ⟨fun hc => ?_, ih⟩
      exact (mem_firstSeen.mp hc).2 (List.mem_cons_self a seen)

theorem keys_foldl_stepPure (anns : List JValue) :
    ∀ g, (anns.foldl stepPure g).map Prod.fst =
      g.map Prod.fst ++ firstSeen (g.map Prod.fst) (validKeys anns) := by
  induction anns with
  | nil => intro g; simp [validKeys, firstSeen]
  | cons item rest ih =>
    intro g
    rw [List.foldl_cons]
    cases item with
    | obj fields =>
      cases hT : entryTime fields with
      | none =>
        have hstep : stepPure g (.obj fields) = g := by
          rw [stepPure, hT]
        have hvk : validKeys (JValue.obj fields :: rest) = validKeys rest := by
          simp [validKeys, hT]
        rw [hstep, hvk, ih]
      | some t =>
        have hstep : stepPure g (.obj fields) =
            insertGrouped g (entryFm fields) (t, entryTp fields) := by
          rw [stepPure, hT]
        have hvk : validKeys (JValue.obj fields :: rest) =
            entryFm fields :: validKeys rest := by
          simp [validKeys, hT]
        rw [hstep, hvk, ih, keys_insertGrouped]
        by_cases hmem : entryFm fields ∈ g.map Prod.fst
        · rw [if_pos hmem, firstSeen, if_pos hmem]
        · rw [if_neg hmem, firstSeen, if_neg hmem, List.append_assoc,
            List.singleton_append]
          refine congrArg _ (congrArg _ (firstSeen_congr fun x => ?_))
          simp only [List.mem_append, List.mem_cons, List.mem_singleton,
            List.not_mem_nil, or_false]
          tauto
    | null => rw [show stepPure g JValue.null = g from rfl]; simpa [validKeys] using ih g
    | bool b => rw [show stepPure g (JValue.bool b) = g from rfl]; simpa [validKeys] using ih g
    | num q => rw [show stepPure g (JValue.num q) = g from rfl]; simpa [validKeys] using ih g
    | str s => rw [show stepPure g (JValue.str s) = g from rfl]; simpa [validKeys] using ih g
    | arr xs => rw [show stepPure g (JValue.arr xs) = g from rfl]; simpa [validKeys] using ih g

theorem length_firstSeen_eq_dedup (l : List String) :
    (firstSeen [] l).length = l.dedup.length := by
  have h1 : (firstSeen [] l).Nodup := nodup_firstSeen
  have h2 : l.dedup.Nodup := l.nodup_dedup
  have h3 : (firstSeen [] l).toFinset = l.dedup.toFinset := by
    ext k
    simp [List.mem_toFinset, mem_firstSeen, List.mem_dedup]
  calc (firstSeen [] l).length
      = (firstSeen [] l).toFinset.card := (List.toFinset_card_of_nodup h1).symm
    _ = l.dedup.toFinset.card := by rw [h3]
    _ = l.dedup.length := List.toFinset_card_of_nodup h2

theorem stepPure_not_coercible {item : JValue}
    (h : timeCoercible item = false) (g : List (String × List TimePair)) :
    stepPure g item = g := by
  cases item with
  | obj fields =>
    rw [timeCoercible] at h
    rw [stepPure]
    cases hT : entryTime fields with
    | none => rfl
    | some t => rw [hT] at h; cases h
  | null => rfl
  | bool b => rfl
  | num q => rfl
  | str s => rfl
  | arr xs => rfl

theorem foldl_stepPure_filter (anns : List JValue) :
    ∀ g, (anns.filter timeCoercible).foldl stepPure g = anns.foldl stepPure g := by
  induction anns with
  | nil => intro g; rfl
  | cons item rest ih =>
    intro g
    cases hc : timeCoercible item with
    | true => rw [List.filter_cons_of_pos hc, List.foldl_cons, List.foldl_cons, ih]
    | false =>
      rw [List.filter_cons_of_neg (by simp [hc]), List.foldl_cons,
        stepPure_not_coercible hc, ih]

theorem lookupField_mkPayload_vp (vp : String) (anns : List JValue) :
    lookupField [("video_path", .str vp), ("annotations", .arr anns)] "video_path" =
      some (.str vp) := by
  simp [lookupField]

theorem lookupField_mkPayload_ann (vp : String) (anns : List JValue) :
    lookupField [("video_path", .str vp), ("annotations", .arr anns)] "annotations" =
      some (.arr anns) := by
  simp [lookupField]

theorem wfPayload_mkPayload (vp : String) (anns : List JValue) :
    wfPayload (mkPayload vp anns) = anns.all wfEntry := by
  rw [mkPayload, wfPayload, lookupField_mkPayload_vp, lookupField_mkPayload_ann]
  simp [wfStrippable]

theorem payloadAnns_mkPayload (vp : String) (anns : List JValue) :
    payloadAnns (mkPayload vp anns) = anns := by
  rw [mkPayload, payloadAnns, lookupField_mkPayload_ann]
  rfl

theorem payloadVp_mkPayload (vp : String) (anns : List JValue) :
    payloadVp (mkPayload vp anns) = pyStripStr vp := by
  rw [mkPayload, payloadVp, lookupField_mkPayload_vp]
  rfl

/-! Claim theorems. -/

/-- C1, counterexample: the Row Formatter does raise on some JSON-decoded
dictionary.  On the payload with a numeric `video_path`, the source's
`payload.get("video_path", "").strip()` raises `AttributeError` (a number
has no `.strip`), so the result is an exception, not a row list. -/
theorem c1_raises_on_nonstring_video_path :
    format_annotations (.obj [("video_path", .num 1)]) =
      .error "AttributeError: strip" := rfl

/-- C1 (amended): for every payload whose `video_path` is a string (or
absent), whose `annotations` is a list (or absent) of dict entries with
string-or-falsy `fmItem` and string-or-absent `type`, `format_annotations`
returns a row list and never raises; entries whose `time` fails to coerce
are skipped, not fatal. -/
theorem c1_formatter_total_on_wf_payloads (p : JValue) (h : wfPayload p = true) :
    ∃ rows, format_annotations p = .ok rows :=
  ⟨_, format_annotations_wf h⟩

theorem c1_formatter_total_on_wf_payloads_witness :
    wfPayload scenarioA = true ∧ ∃ rows, format_annotations scenarioA = .ok rows :=
  ⟨rfl, c1_formatter_total_on_wf_payloads scenarioA rfl⟩

/-- C2: every successful result is a list of rows
`[video_path, fm_item, times]` where `times` serializes the group's pairs,
sorted by time, as comma-joined `type:time` with two decimal digits; and on
the Scenario A payload the result is exactly
`[["a.mp4", "f1", "y:1.00,x:2.00"]]`. -/
theorem c2_row_shape_and_scenarioA :
    (∀ (p : JValue) (rows : List (List String)), format_annotations p = .ok rows →
      ∃ (vp : String) (grouped : List (String × List TimePair)),
        rows = grouped.map (fun g => [vp, g.1, joinTimes (sortPairs g.2)])) ∧
    format_annotations scenarioA = .ok [["a.mp4", "f1", "y:1.00,x:2.00"]] :=
  ⟨fun _ _ h => format_annotations_shape h, rfl⟩

theorem c2_row_shape_and_scenarioA_witness :
    ∃ (vp : String) (grouped : List (String × List TimePair)),
      [["a.mp4", "f1", "y:1.00,x:2.00"]] =
        grouped.map (fun g => [vp, g.1, joinTimes (sortPairs g.2)]) :=
  c2_row_shape_and_scenarioA.1 scenarioA _ c2_row_shape_and_scenarioA.2

/-- C3: on well-formed payloads the formatter succeeds, the rows' `fm_item`
column is the first-seen-order list of the keys of time-coercible entries,
that list has no duplicates and contains exactly those keys, and the number
of rows equals the number of distinct such keys. -/
theorem c3_row_count_first_seen_order (p : JValue) (h : wfPayload p = true) :
    ∃ rows, format_annotations p = .ok rows ∧
      rows.map (fun r => r.getD 1 "") = firstSeen [] (validKeys (payloadAnns p)) ∧
      (firstSeen [] (validKeys (payloadAnns p))).Nodup ∧
      (∀ k, k ∈ firstSeen [] (validKeys (payloadAnns p)) ↔
        k ∈ validKeys (payloadAnns p)) ∧
      rows.length = (validKeys (payloadAnns p)).dedup.length := by
  have hkeys := keys_foldl_stepPure (payloadAnns p) []
  simp only [List.map_nil, List.nil_append] at hkeys
  have hmap : (((payloadAnns p).foldl stepPure []).map
      (fun g => [payloadVp p, g.1, joinTimes (sortPairs g.2)])).map
        (fun r => r.getD 1 "") = firstSeen [] (validKeys (payloadAnns p)) := by
    rw [List.map_map]
    have hcomp : ((fun r => List.getD r 1 "") ∘
        (fun g : String × List TimePair =>
          [payloadVp p, g.1, joinTimes (sortPairs g.2)])) = Prod.fst := by
      funext g; rfl
    rw [hcomp, hkeys]
  have hlen : (((payloadAnns p).foldl stepPure []).map
      (fun g => [payloadVp p, g.1, joinTimes (sortPairs g.2)])).length =
      (validKeys (payloadAnns p)).dedup.length := by
    rw [List.length_map, ← length_firstSeen_eq_dedup, ← hkeys, List.length_map]
  exact ⟨_, format_annotations_wf h, hmap, nodup_firstSeen,
    fun k => by rw [mem_firstSeen]; simp, hlen⟩

theorem c3_row_count_first_seen_order_witness :
    wfPayload scenarioMixed = true ∧
    ∃ rows, format_annotations scenarioMixed = .ok rows ∧
      rows.map (fun r => r.getD 1 "") =
        firstSeen [] (validKeys (payloadAnns scenarioMixed)) ∧
      (firstSeen [] (validKeys (payloadAnns scenarioMixed))).Nodup ∧
      (∀ k, k ∈ firstSeen [] (validKeys (payloadAnns scenarioMixed)) ↔
        k ∈ validKeys (payloadAnns scenarioMixed)) ∧
      rows.length = (validKeys (payloadAnns scenarioMixed)).dedup.length :=
  ⟨rfl, c3_row_count_first_seen_order scenarioMixed rfl⟩

/-- C4: in every successful result, each group's serialized pairs are the
stable ascending-by-time sort of the group's pairs in input order: the
sorted list is pairwise non-decreasing in time, and for each time value the
pairs with that time appear in their original relative order (the filter at
each time value is unchanged by the sort). -/
theorem c4_groups_sorted_stable (p : JValue) (rows : List (List String))
    (h : format_annotations p = .ok rows) :
    ∃ (vp : String) (grouped : List (String × List TimePair)),
      rows = grouped.map (fun g => [vp, g.1, joinTimes (sortPairs g.2)]) ∧
      ∀ g ∈ grouped, (sortPairs g.2).Pairwise (fun a b => a.1 ≤ b.1) ∧
        ∀ t, (sortPairs g.2).filter (fun x => decide (x.1 = t)) =
          g.2.filter (fun x => decide (x.1 = t)) := by
  obtain ⟨vp, grouped, hr⟩ := format_annotations_shape h
  exact ⟨vp, grouped, hr,
    fun g _ => ⟨sortPairs_sorted g.2, fun t => sortPairs_stable g.2 t⟩⟩

theorem c4_groups_sorted_stable_witness :
    ∃ (vp : String) (grouped : List (String × List TimePair)),
      [["", "f", "a:1.00,b:1.00"]] =
        grouped.map (fun g => [vp, g.1, joinTimes (sortPairs g.2)]) ∧
      ∀ g ∈ grouped, (sortPairs g.2).Pairwise (fun a b => a.1 ≤ b.1) ∧
        ∀ t, (sortPairs g.2).filter (fun x => decide (x.1 = t)) =
          g.2.filter (fun x => decide (x.1 = t)) :=
  c4_groups_sorted_stable scenarioTie [["", "f", "a:1.00,b:1.00"]] rfl

/-- C5: entries whose `time` fails to coerce are dropped whole — removing
them from the payload leaves the output unchanged, so their `type` and
`fmItem` contribute nothing, while all time-coercible entries still produce
their rows; and when no entry survives, the result is the empty row list. -/
theorem c5_bad_time_drops_entry_only (vp : String) (anns : List JValue)
    (h : anns.all wfEntry = true) :
    format_annotations (mkPayload vp anns) =
      format_annotations (mkPayload vp (anns.filter timeCoercible)) ∧
    (anns.filter timeCoercible = [] →
      format_annotations (mkPayload vp anns) = .ok []) := by
  have hf : (anns.filter timeCoercible).all wfEntry = true := by
    rw [List.all_eq_true] at h ⊢
    intro x hx
    exact h x (List.mem_of_mem_filter hx)
  have h1 := format_annotations_wf (p := mkPayload vp anns)
    (by rw [wfPayload_mkPayload]; exact h)
  have h2 := format_annotations_wf (p := mkPayload vp (anns.filter timeCoercible))
    (by rw [wfPayload_mkPayload]; exact hf)
  rw [payloadAnns_mkPayload, payloadVp_mkPayload] at h1 h2
  refine ⟨?_, ?_⟩
  · rw [h1, h2, foldl_stepPure_filter]
  · intro hnil
    rw [h1, ← foldl_stepPure_filter, hnil]
    rfl

theorem c5_bad_time_drops_entry_only_witness :
    ([JValue.obj [("time", .num 1), ("type", .str "x"), ("fmItem", .str "f1")],
      JValue.obj [("time", .str "not-a-number"), ("type", .str "z"),
        ("fmItem", .str "f2")]].all wfEntry = true) ∧
    (format_annotations (mkPayload "a.mp4"
        [JValue.obj [("time", .num 1), ("type", .str "x"), ("fmItem", .str "f1")],
         JValue.obj [("time", .str "not-a-number"), ("type", .str "z"),
           ("fmItem", .str "f2")]]) =
      format_annotations (mkPayload "a.mp4"
        ([JValue.obj [("time", .num 1), ("type", .str "x"), ("fmItem", .str "f1")],
          JValue.obj [("time", .str "not-a-number"), ("type", .str "z"),
            ("fmItem", .str "f2")]].filter timeCoercible)) ∧
     ([JValue.obj [("time", .num 1), ("type", .str "x"), ("fmItem", .str "f1")],
       JValue.obj [("time", .str "not-a-number"), ("type", .str "z"),
         ("fmItem", .str "f2")]].filter timeCoercible = [] →
       format_annotations (mkPayload "a.mp4"
         [JValue.obj [("time", .num 1), ("type", .str "x"), ("fmItem", .str "f1")],
          JValue.obj [("time", .str "not-a-number"), ("type", .str "z"),
            ("fmItem", .str "f2")]]) = .ok [])) :=
  ⟨rfl, c5_bad_time_drops_entry_only "a.mp4" _ rfl⟩

/-- C6, counterexample: a payload whose `annotations` field is a number is
not treated as an empty list — `for item in ann` raises `TypeError`, so
`format_annotations` raises instead of returning zero rows. -/
theorem c6_nonlist_not_treated_as_empty :
    format_annotations (.obj [("annotations", .num 3)]) =
      .error "TypeError: object is not iterable" := rfl

/-- C6 (amended): when the `annotations` field is absent, it is treated as
the empty list and the result is zero rows (given a well-formed
`video_path`); when it is present but a number or null, `format_annotations`
raises `TypeError` rather than treating it as empty. -/
theorem c6_absent_empty_nonlist_raises :
    (∀ fields : List (String × JValue),
      lookupField fields "annotations" = none →
      wfStrippable ((lookupField fields "video_path").getD (.str "")) = true →
      format_annotations (.obj fields) = .ok []) ∧
    (∀ (fields : List (String × JValue)) (q : ℚ),
      lookupField fields "annotations" = some (.num q) →
      wfStrippable ((lookupField fields "video_path").getD (.str "")) = true →
      ∃ e, format_annotations (.obj fields) = .error e) ∧
    format_annotations (.obj [("annotations", .null)]) =
      .error "TypeError: object is not iterable" := by
  refine ⟨?_, ?_, rfl⟩
  · intro fields hnone hvp
    obtain ⟨s, hs⟩ := wfStrippable_iff.mp hvp
    unfold format_annotations
    simp only [pyGet]
    rw [hs]
    simp only [pyStrip]
    rw [hnone]
    rfl
  · intro fields q hq hvp
    obtain ⟨s, hs⟩ := wfStrippable_iff.mp hvp
    refine ⟨"TypeError: object is not iterable", ?_⟩
    unfold format_annotations
    simp only [pyGet]
    rw [hs]
    simp only [pyStrip]
    rw [hq]
    rfl

theorem c6_absent_empty_nonlist_raises_witness :
    format_annotations (.obj [("video_path", .str "a")]) = .ok [] ∧
    ∃ e, format_annotations (.obj [("annotations", .num 3)]) = .error e :=
  ⟨c6_absent_empty_nonlist_raises.1 _ rfl rfl,
   c6_absent_empty_nonlist_raises.2.1 _ 3 rfl rfl⟩

/-- C7: starting from a missing file, any non-empty sequence of `write_rows`
calls yields the header as the first line followed by all batches' data
rows; appends onto an existing file add data rows only; and when no data row
collides with the header text, the header occurs exactly once. -/
theorem c7_header_written_once :
    (∀ batches : List (List (List String)), batches ≠ [] →
      batches.foldl write_rows none =
        some (headerLine :: batches.flatten.map rowLine)) ∧
    (∀ (lines : List String) (batches : List (List (List String))),
      batches.foldl write_rows (some lines) =
        some (lines ++ batches.flatten.map rowLine)) ∧
    (∀ batches : List (List (List String)), batches ≠ [] →
      headerLine ∉ batches.flatten.map rowLine →
      ((batches.foldl write_rows none).getD []).count headerLine = 1) := by
  have happend : ∀ (batches : List (List (List String))) (lines : List String),
      batches.foldl write_rows (some lines) =
        some (lines ++ batches.flatten.map rowLine) := by
    intro batches
    induction batches with
    | nil => intro lines; simp
    | cons b rest ih =>
      intro lines
      rw [List.foldl_cons]
      show rest.foldl write_rows (some (lines ++ b.map rowLine)) = _
      rw [ih]
      simp [List.flatten_cons]
  have hfresh : ∀ batches : List (List (List String)), batches ≠ [] →
      batches.foldl write_rows none =
        some (headerLine :: batches.flatten.map rowLine) := by
    intro batches hne
    cases batches with
    | nil => exact absurd rfl hne
    | cons b rest =>
      rw [List.foldl_cons]
      show rest.foldl write_rows (some (headerLine :: b.map rowLine)) = _
      rw [happend]
      simp [List.flatten_cons]
  refine ⟨hfresh, fun lines batches => happend batches lines, fun batches hne hni => ?_⟩
  rw [hfresh batches hne]
  show (headerLine :: batches.flatten.map rowLine).count headerLine = 1
  rw [List.count_cons_self, List.count_eq_zero.mpr hni]

theorem c7_header_written_once_witness :
    ([[["a"]], [["b"]]].foldl write_rows none =
      some (headerLine :: ([[["a"]], [["b"]]] :
        List (List (List String))).flatten.map rowLine)) ∧
    (([[["c"]]] : List (List (List String))).foldl write_rows (some ["x"]) =
      some (["x"] ++ ([[["c"]]] : List (List (List String))).flatten.map rowLine)) ∧
    ((([[["a"]], [["b"]]] : List (List (List String))).foldl write_rows none).getD
      []).count headerLine = 1 :=
  ⟨c7_header_written_once.1 _ (by decide),
   c7_header_written_once.2.1 ["x"] _,
   c7_header_written_once.2.2 _ (by decide) (by decide)⟩

/-- C8: when the formatted body yields zero rows, the handler answers 400
with `{"error": "No valid annotations"}` and the file state is unchanged (no
write occurs). -/
theorem c8_zero_rows_400_no_write (body : Option JValue) (fs : Option (List String))
    (h : format_annotations (payloadOfBody body) = .ok []) :
    save_annotations true body fs =
      .ok ((400, .obj [("error", .str "No valid annotations")]), fs) := by
  simp [save_annotations, h]

theorem c8_zero_rows_400_no_write_witness :
    format_annotations (payloadOfBody (some (.obj [("annotations", .arr [])]))) =
      .ok [] ∧
    save_annotations true (some (.obj [("annotations", .arr [])]))
        (some ["video_path;fm_item;times"]) =
      .ok ((400, .obj [("error", .str "No valid annotations")]),
        some ["video_path;fm_item;times"]) :=
  ⟨rfl, c8_zero_rows_400_no_write _ _ rfl⟩

/-- C10: an entry with no `time` key keeps its row contribution — the
source's `item.get("time", 0.0)` defaults to `0.0`, which coerces to `0`,
formatted as `0.00`; a one-entry payload without `time` yields the pair
`x:0.00`. -/
theorem c10_missing_time_defaults_zero :
    (∀ fields : List (String × JValue), lookupField fields "time" = none →
      entryTime fields = some 0) ∧
    format2 0 = "0.00" ∧
    format_annotations
        (.obj [("annotations", .arr [.obj [("type", .str "x"), ("fmItem", .str "f")]])]) =
      .ok [["", "f", "x:0.00"]] :=
  ⟨fun fields h => by rw [entryTime, h]; rfl, rfl, rfl⟩

theorem c10_missing_time_defaults_zero_witness :
    entryTime [("type", JValue.str "x"), ("fmItem", JValue.str "f")] = some 0 :=
  c10_missing_time_defaults_zero.1 _ rfl
